import Mathlib

/-!
Verification of the go-entitystore repository: a shallow embedding of the
structured key namespace engine (`keyfactory` and its internal `rediskey`
package), the datastore client boundary, the generic entity store engine
(`entitystore`) and the event notification channel (`eventemitter`),
together with theorems settling the specification claims.

Go strings are modelled as `List Char`, byte slices as `List Nat`.
Fallible Go functions returning `(T, error)` are modelled as `Option`- or
`Outcome`-valued Lean functions.  Calls to the external Redis store are
recorded in an explicit trace, with the store's responses supplied by an
oracle, so that statements about which calls an operation issues and which
events it emits are statable.
-/

abbrev Str := List Char

abbrev Bytes := List Nat

/-- Character class of the Go regexp in redis_key.go:
`^[a-zA-Z0-9:_\-\*\?\[\]\(\),]+$` (ASCII letters and digits plus the
listed punctuation). -/
def isAllowedChar (c : Char) : Bool :=
  c.isAlpha || c.isDigit || c == ':' || c == '_' || c == '-' || c == '*' ||
  c == '?' || c == '[' || c == ']' || c == '(' || c == ')' || c == ','

/-- Word character of Go regexp `\w`, i.e. `[0-9A-Za-z_]`. -/
def isWordChar (c : Char) : Bool :=
  c.isAlpha || c.isDigit || c == '_'

/-! ## rediskey package -/

/-- rediskey.Validate: a key is valid when it is non-empty, at most 1024
characters, consists of allowed characters only, and neither starts nor
ends with the delimiter character. -/
def rkValidate (key : Str) : Bool :=
  !key.isEmpty && decide (key.length ≤ 1024) && key.all isAllowedChar &&
  !(key.head? == some ':') && !(key.getLast? == some ':')

/-- Joining a list of non-empty fragments with the delimiter; helper for
`rkBuild` (mirrors the first/rest logic of the Go string builder loop). -/
def rkJoin : List Str → Str
  | [] => []
  | [k] => k
  | k :: ks => k ++ ':' :: rkJoin ks

/-- rediskey.Build: skips empty keys and joins the rest with the
delimiter. -/
def rkBuild (keys : List Str) : Str :=
  rkJoin (keys.filter (fun k => !k.isEmpty))

/-- Fragment-collection loop of rediskey.New: skip empty fragments, fail
on a fragment containing the delimiter, lower-case the rest. -/
def rkNewCollect : List Str → Option (List Str)
  | [] => some []
  | f :: fs =>
    if f.isEmpty then rkNewCollect fs
    else if f.contains ':' then none
    else (rkNewCollect fs).map (f.map Char.toLower :: ·)

/-- rediskey.New: collect the fragments, join them with the delimiter and
validate the result. -/
def rkNew (frags : List Str) : Option Str :=
  match rkNewCollect frags with
  | none => none
  | some keys =>
    let key := rkJoin keys
    if rkValidate key then some key else none

/-- rediskey.BuildMatchKeyPattern: base key, delimiter, wildcard glyph. -/
def rkBuildMatchKeyPattern (base : Str) (wc : Str) : Str :=
  base ++ ':' :: wc

/-- Helper of `rkParse`, accumulating the current fragment in reverse. -/
def rkParseAux : Str → Str → List Str
  | [], acc => [acc.reverse]
  | c :: rest, acc =>
    if c == ':' then acc.reverse :: rkParseAux rest []
    else rkParseAux rest (c :: acc)

/-- rediskey.Parse, i.e. strings.Split on the delimiter. -/
def rkParse (s : Str) : List Str :=
  rkParseAux s []

/-! ## keyfactory package -/

/-- keyfactory.ReservedNamespaceDelimiter. -/
def resNSDelim : Str := ['_', '_']

/-- keyfactory.keyNamespace: wrap the lower-cased namespace in the
reserved delimiter (empty namespace stays empty). -/
def kfKeyNamespace (ns : Str) : Str :=
  if ns.isEmpty then []
  else resNSDelim ++ ns.map Char.toLower ++ resNSDelim

/-- keyfactory.validateKeyFragments: every non-empty fragment must not
start with the reserved namespace delimiter. -/
def kfValidateKeyFragmentsOk (frags : List Str) : Bool :=
  frags.all (fun f => f.isEmpty || !(resNSDelim.isPrefixOf f))

/-- keyfactory.ValidateKeyFragment: the fragment check plus rediskey
validation. -/
def kfValidateKeyFragmentOk (f : Str) : Bool :=
  kfValidateKeyFragmentsOk [f] && rkValidate f

/-- keyfactory.Key: a logical key plus its (already wrapped) namespace. -/
structure KFKey where
  key : Str
  ns : Str
deriving DecidableEq, Repr

/-- keyfactory.NewKey: wraps the namespace unless it already carries the
reserved delimiter as a prefix. -/
def kfNewKey (key ns : Str) : KFKey :=
  if resNSDelim.isPrefixOf ns then ⟨key, ns⟩ else ⟨key, kfKeyNamespace ns⟩

/-- Key.RedisKey: join the namespace and the logical key. -/
def KFKey.redisKey (k : KFKey) : Str :=
  rkBuild [k.ns, k.key]

/-- keyfactory.KeyBuilder field state (the builder's mutation protocol is
modelled by constructing this record per build; BuildAndReset's reset of
a fresh or namespace-fixed builder is state-equivalent to that). -/
structure KeyBuilder where
  key : Str
  parentKey : Str
  wildcard : Str
  ns : Str

/-- keyfactory.validateOptionalKeys: the fragment check over all
arguments, then rediskey validation of each non-empty argument. -/
def kfValidateOptionalKeysOk (keys : List Str) : Bool :=
  kfValidateKeyFragmentsOk keys &&
  keys.all (fun k => k.isEmpty || rkValidate k)

/-- The composed key body of a build before the wildcard: parent and key
joined with the delimiter. -/
def KeyBuilder.preBody (b : KeyBuilder) : Str :=
  rkBuild [b.parentKey, b.key]

/-- The composed key body of a build: the joined parent and key, with
the wildcard pattern appended when the wildcard is set. -/
def KeyBuilder.body (b : KeyBuilder) : Str :=
  if !b.wildcard.isEmpty then rkBuildMatchKeyPattern b.preBody b.wildcard else b.preBody

/-- KeyBuilder.build: validate the parts, join parent and key, append the
wildcard pattern if set, reject an empty result. -/
def KeyBuilder.build (b : KeyBuilder) : Option KFKey :=
  if kfValidateOptionalKeysOk [b.key, b.parentKey, b.ns] then
    if b.body.isEmpty then none else some (kfNewKey b.body b.ns)
  else none

/-- strings.TrimPrefix. -/
def trimPrefixStr (s p : Str) : Str :=
  if p.isPrefixOf s then s.drop p.length else s

/-- strings.TrimSuffix. -/
def trimSuffixStr (s p : Str) : Str :=
  if p.isSuffixOf s then s.take (s.length - p.length) else s

/-- Backtracking search of the Go regexp `^(__\w+__)[:]?` used by
ParseRedisKey: the greedy `\w+` tries the longest candidate length first
and shrinks until the closing reserved delimiter matches.  Candidate
length `j+1` requires positions `j+3` and `j+4` of the key to be the
closing underscores; the caller starts at the largest length permitted by
the word-character run. -/
def nsLenAux (key : Str) : Nat → Option Nat
  | 0 => none
  | j + 1 =>
    if (key.drop (j + 3)).take 2 = resNSDelim then some (j + 1)
    else nsLenAux key j

/-- The namespace name extracted by ParseRedisKey for a regexp match of
capture length `j`: the matched `__name__` stripped of one leading and
one trailing reserved delimiter. -/
def parseNSName (key : Str) (j : Nat) : Str :=
  trimSuffixStr (trimPrefixStr (key.take (j + 4)) resNSDelim) resNSDelim

/-- The remaining key body after ParseRedisKey strips the full regexp
match (including the optional delimiter the regexp consumes). -/
def parseRest (key : Str) (j : Nat) : Str :=
  if (key.drop (j + 4)).head? = some ':' then (key.drop (j + 4)).tail
  else key.drop (j + 4)

/-- keyfactory.ParseRedisKey: validate, extract a leading
`__namespace__` via the regexp (with optional following delimiter),
unwrap the reserved delimiters, and rebuild the Key. -/
def kfParseRedisKey (key : Str) : Option KFKey :=
  if rkValidate key then
    match (if key.take 2 = resNSDelim then
        nsLenAux key ((key.takeWhile isWordChar).length - 4) else none) with
    | none => some (kfNewKey key [])
    | some j => some (kfNewKey (parseRest key j) (parseNSName key j))
  else none

example : rkBuild [['a'], ['b']] = ['a', ':', 'b'] := by decide
example : KeyBuilder.build ⟨"entity:entity1".toList, [], [], []⟩ =
    some ⟨"entity:entity1".toList, []⟩ := by decide
example : KeyBuilder.build ⟨"tenant1:entity:entity1".toList, [], [], "group1".toList⟩ =
    some ⟨"tenant1:entity:entity1".toList, "__group1__".toList⟩ := by decide
example : (KeyBuilder.build ⟨"entity".toList, "tenant:tenant1".toList, ['*'], []⟩).map
    KFKey.redisKey = some "tenant:tenant1:entity:*".toList := by decide
example : KeyBuilder.build ⟨"__entity:entity1".toList, [], [], []⟩ = none := by decide
example : KeyBuilder.build ⟨":entity1".toList, [], [], []⟩ = none := by decide
example : KeyBuilder.build ⟨"entity:entity1".toList, "__tenant".toList, [], []⟩ = none := by decide
example : kfParseRedisKey "__app1__:tenant:tenant1:product:product-1".toList =
    some ⟨"tenant:tenant1:product:product-1".toList, "__app1__".toList⟩ := by decide
example : kfParseRedisKey "plain:key".toList = some ⟨"plain:key".toList, []⟩ := by decide

/-! ## Redis glob matching (behaviour of the external store's KEYS/SCAN
pattern primitive, needed to exhibit concrete store contents; bracket
classes are not used by any key this repository produces and are not
modelled). -/

/-- Fuel-indexed glob matcher; every recursive call shrinks the combined
length of pattern and subject, so fuel `p.length + s.length + 1` always
suffices and the fuel-exhausted branch is unreachable from `globMatch`. -/
def globMatchF : Nat → Str → Str → Bool
  | 0, _, _ => false
  | _ + 1, [], [] => true
  | _ + 1, [], _ :: _ => false
  | fuel + 1, '*' :: p, [] => globMatchF fuel p []
  | fuel + 1, '*' :: p, c :: s => globMatchF fuel p (c :: s) || globMatchF fuel ('*' :: p) s
  | _ + 1, '?' :: _, [] => false
  | fuel + 1, '?' :: p, _ :: s => globMatchF fuel p s
  | _ + 1, _ :: _, [] => false
  | fuel + 1, a :: p, c :: s => a == c && globMatchF fuel p s

/-- Glob matching with `*` (zero or more characters) and `?` (exactly one
character); other characters match literally. -/
def globMatch (p s : Str) : Bool :=
  globMatchF (p.length + s.length + 1) p s

/-! ## datastore package -/

/-- One command sent to the underlying Redis client, carrying the
rendered key strings exactly as the Go datastore.Client sends them. -/
inductive DsCall where
  | setC (key : Str) (data : Bytes) (exp : Int)
  | msetC (pairs : List (Str × Bytes)) (exp : Int)
  | delC (keys : List Str)
  | getC (key : Str)
  | mgetC (keys : List Str)
  | keysC (pattern : Str)
  | scanC (cursor : Nat) (limit : Int) (pattern : Str)
  | existsC (key : Str)
deriving DecidableEq, Repr

/-- One observable action of an entity store operation: a datastore call
or an event emission (event name plus the argument key list). -/
inductive Act where
  | call (c : DsCall)
  | emit (name : Str) (keys : List Str)
deriving DecidableEq, Repr

/-- Error kinds distinguished by the claims: key-validation errors,
codec errors, store I/O errors, the distinguished not-found signal, and
scan-result parse failures. -/
inductive ErrKind where
  | invalidKey
  | marshalErr
  | unmarshalErr
  | storeErr
  | notFound
  | parseErr
deriving DecidableEq, Repr

/-- Outcome of an operation: a value, a returned error of a given kind,
or a runtime panic. -/
inductive Outcome (α : Type) where
  | ok (a : α)
  | err (e : ErrKind)
  | panicked
deriving DecidableEq, Repr

/-- Responses of the external Redis server, one field per command kind
(`none` models a command-level I/O error). -/
structure Oracle where
  setOk : Str → Bytes → Bool
  msetOk : List (Str × Bytes) → Bool
  delOk : List Str → Bool
  getRes : Str → Option (Option Bytes)
  mgetRes : List Str → Option (List (Option Bytes))
  keysRes : Str → Option (List Str)
  scanRes : Nat → Int → Str → Option (List Str × Nat)
  existsRes : Str → Option Bool

/-- datastore.Client.Put: render the key, issue SET, wrap a failure
(the nil-key no-op guard is unreachable from the entity store, which only
passes successfully built keys). -/
def dsPut (o : Oracle) (k : KFKey) (d : Bytes) (exp : Int) : Outcome Unit × List Act :=
  if o.setOk k.redisKey d then (.ok (), [.call (.setC k.redisKey d exp)])
  else (.err .storeErr, [.call (.setC k.redisKey d exp)])

/-- The rendered key/value pairs of a batched write. -/
def dsPairs (keys : List KFKey) (data : List Bytes) : List (Str × Bytes) :=
  (keys.zip data).map (fun kd => (kd.1.redisKey, kd.2))

/-- datastore.Client.PutMulti: length mismatch is an error before any
command, the empty batch is a no-op, otherwise the key/data pairs go out
as one pipelined request.  The Go code collects the pairs into a map, so
duplicate rendered keys would collapse and the wire order is
unspecified; the model keeps the input order, which no claim observes. -/
def dsPutMulti (o : Oracle) (keys : List KFKey) (data : List Bytes) (exp : Int) :
    Outcome Unit × List Act :=
  if keys.length ≠ data.length then (.err .storeErr, [])
  else if keys.isEmpty then (.ok (), [])
  else if o.msetOk (dsPairs keys data) then
    (.ok (), [.call (.msetC (dsPairs keys data) exp)])
  else (.err .storeErr, [.call (.msetC (dsPairs keys data) exp)])

/-- datastore.Client.Delete: no-op on the empty key list, otherwise one
DEL with all rendered keys. -/
def dsDelete (o : Oracle) (keys : List KFKey) : Outcome Unit × List Act :=
  if keys.isEmpty then (.ok (), [])
  else if o.delOk (keys.map KFKey.redisKey) then
    (.ok (), [.call (.delC (keys.map KFKey.redisKey))])
  else (.err .storeErr, [.call (.delC (keys.map KFKey.redisKey))])

/-- datastore.Client.Get: GET, with the redis.Nil miss mapped to the
distinguished not-found error. -/
def dsGet (o : Oracle) (k : KFKey) : Outcome Bytes × List Act :=
  match o.getRes k.redisKey with
  | none => (.err .storeErr, [.call (.getC k.redisKey)])
  | some none => (.err .notFound, [.call (.getC k.redisKey)])
  | some (some b) => (.ok b, [.call (.getC k.redisKey)])

/-- datastore.Client.GetMulti: no-op on the empty slice; rendering a nil
key slot dereferences a nil pointer before any command is sent, which is
a runtime panic; otherwise MGET, with missing keys silently dropped from
the result. -/
def dsGetMulti (o : Oracle) (keys : List (Option KFKey)) :
    Outcome (List Bytes) × List Act :=
  if keys.isEmpty then (.ok [], [])
  else if keys.any (·.isNone) then (.panicked, [])
  else
    match o.mgetRes (keys.filterMap (fun k? => k?.map KFKey.redisKey)) with
    | none => (.err .storeErr,
        [.call (.mgetC (keys.filterMap (fun k? => k?.map KFKey.redisKey)))])
    | some results => (.ok (results.filterMap id),
        [.call (.mgetC (keys.filterMap (fun k? => k?.map KFKey.redisKey)))])

/-- Parsing loop shared by GetKeys and GetKeysWithCursor: every returned
raw key must parse back into a Key. -/
def parseAllKeys : List Str → Option (List KFKey)
  | [] => some []
  | rk :: rest =>
    match kfParseRedisKey rk with
    | none => none
    | some k => (parseAllKeys rest).map (k :: ·)

/-- datastore.Client.GetKeys: blocking KEYS enumeration followed by
parsing each returned key. -/
def dsGetKeys (o : Oracle) (keyMatch : KFKey) : Outcome (List KFKey) × List Act :=
  match o.keysRes keyMatch.redisKey with
  | none => (.err .storeErr, [.call (.keysC keyMatch.redisKey)])
  | some rsKeys =>
    match parseAllKeys rsKeys with
    | none => (.err .parseErr, [.call (.keysC keyMatch.redisKey)])
    | some keys => (.ok keys, [.call (.keysC keyMatch.redisKey)])

/-- datastore.Client.DeleteMatch: enumerate the pattern's keys, no-op
when none exist, otherwise delete them all. -/
def dsDeleteMatch (o : Oracle) (keyMatch : KFKey) : Outcome Unit × List Act :=
  match dsGetKeys o keyMatch with
  | (.err e, tr) => (.err e, tr)
  | (.panicked, tr) => (.panicked, tr)
  | (.ok keys, tr) =>
    if keys.isEmpty then (.ok (), tr)
    else
      match dsDelete o keys with
      | (r, tr2) => (r, tr ++ tr2)

/-- datastore.Client.GetKeysWithCursor: clamp the limit (at this layer a
limit that is non-positive or strictly above 1000 becomes 1000), issue
SCAN, and parse the returned keys. -/
def dsScan (o : Oracle) (cursor : Nat) (limit : Int) (keyMatch : KFKey) :
    Outcome (List KFKey × Nat) × List Act :=
  let limit := if limit ≤ 0 ∨ limit > 1000 then 1000 else limit
  let pat := keyMatch.redisKey
  match o.scanRes cursor limit pat with
  | none => (.err .storeErr, [.call (.scanC cursor limit pat)])
  | some (rsKeys, nc) =>
    match parseAllKeys rsKeys with
    | none => (.err .parseErr, [.call (.scanC cursor limit pat)])
    | some keys => (.ok (keys, nc), [.call (.scanC cursor limit pat)])

/-- datastore.Client.Exists: EXISTS on the rendered key. -/
def dsExists (o : Oracle) (k : KFKey) : Outcome Bool × List Act :=
  match o.existsRes k.redisKey with
  | none => (.err .storeErr, [.call (.existsC k.redisKey)])
  | some b => (.ok b, [.call (.existsC k.redisKey)])

/-! ## entitystore package -/

/-- An entity as the store sees it: its derived GetKey string and the
result of MarshalProto (`none` models a serialization failure). -/
structure Ent where
  key : Str
  data : Option Bytes
deriving DecidableEq, Repr

/-- An EntityStore instance: the entity kind, the optional namespace and
the entity type's UnmarshalProto success predicate. -/
structure ES where
  entityKind : Str
  ns : Str
  decOk : Bytes → Bool

/-- Event name EntitiesAdded.String(). -/
def addedEv : Str := "EntitiesAdded".toList

/-- Event name EntitiesRemoved.String(). -/
def removedEv : Str := "EntitiesRemoved".toList

/-- Event name EntitiesFlushed.String(). -/
def flushedEv : Str := "EntitiesFlushed".toList

/-- Key construction of the single-entity operations: the store's
namespace-fixed builder with only the entity key set. -/
def esBuildKey (es : ES) (k : Str) : Option KFKey :=
  KeyBuilder.build ⟨k, [], [], es.ns⟩

/-- Key construction of the scope operations (GetAll, RemoveAll,
GetWithPagination): parent key, entity kind as the key, any-string
wildcard, store namespace. -/
def esBuildMatch (es : ES) (parentKey : Str) : Option KFKey :=
  KeyBuilder.build ⟨es.entityKind, parentKey, ['*'], es.ns⟩

/-- EntityStore.Add: build the key, marshal, Put, then emit
EntitiesAdded with the entity's own key. -/
def esAdd (es : ES) (o : Oracle) (e : Ent) (exp : Int) : Outcome Str × List Act :=
  match esBuildKey es e.key with
  | none => (.err .invalidKey, [])
  | some key =>
    match e.data with
    | none => (.err .marshalErr, [])
    | some d =>
      match dsPut o key d exp with
      | (.ok _, tr) => (.ok e.key, tr ++ [.emit addedEv [e.key]])
      | (.err er, tr) => (.err er, tr)
      | (.panicked, tr) => (.panicked, tr)

/-- Key-building and marshalling loop of EntityStore.AddBatch, aborting
on the first invalid key or marshal failure. -/
def esPrepBatch (es : ES) : List Ent → Outcome (List (KFKey × Bytes))
  | [] => .ok []
  | e :: rest =>
    match esBuildKey es e.key with
    | none => .err .invalidKey
    | some k =>
      match e.data with
      | none => .err .marshalErr
      | some d =>
        match esPrepBatch es rest with
        | .ok items => .ok ((k, d) :: items)
        | .err er => .err er
        | .panicked => .panicked

/-- EntityStore.AddBatch: no-op for the empty batch, abort before any
write on a preparation failure, then one PutMulti and one EntitiesAdded
event with all the entities' keys. -/
def esAddBatch (es : ES) (o : Oracle) (ents : List Ent) (exp : Int) :
    Outcome (List Str) × List Act :=
  if ents.isEmpty then (.ok [], [])
  else
    match esPrepBatch es ents with
    | .err er => (.err er, [])
    | .panicked => (.panicked, [])
    | .ok items =>
      match dsPutMulti o (items.map (·.1)) (items.map (·.2)) exp with
      | (.ok _, tr) => (.ok (ents.map (·.key)), tr ++ [.emit addedEv (ents.map (·.key))])
      | (.err er, tr) => (.err er, tr)
      | (.panicked, tr) => (.panicked, tr)

/-- EntityStore.Remove: no-op for the empty key, otherwise build,
Delete, and emit EntitiesRemoved with the input key. -/
def esRemove (es : ES) (o : Oracle) (k : Str) : Outcome Unit × List Act :=
  if k.isEmpty then (.ok (), [])
  else
    match esBuildKey es k with
    | none => (.err .invalidKey, [])
    | some key =>
      match dsDelete o [key] with
      | (.ok _, tr) => (.ok (), tr ++ [.emit removedEv [k]])
      | (.err er, tr) => (.err er, tr)
      | (.panicked, tr) => (.panicked, tr)

/-- Key-building loop of EntityStore.RemoveByKeys. -/
def esPrepKeys (es : ES) : List Str → Outcome (List KFKey)
  | [] => .ok []
  | k :: rest =>
    match esBuildKey es k with
    | none => .err .invalidKey
    | some key =>
      match esPrepKeys es rest with
      | .ok keys => .ok (key :: keys)
      | .err er => .err er
      | .panicked => .panicked

/-- EntityStore.RemoveByKeys: no-op for the empty slice, otherwise build
all keys, one Delete, and EntitiesRemoved with the full input list. -/
def esRemoveByKeys (es : ES) (o : Oracle) (ks : List Str) : Outcome Unit × List Act :=
  if ks.isEmpty then (.ok (), [])
  else
    match esPrepKeys es ks with
    | .err er => (.err er, [])
    | .panicked => (.panicked, [])
    | .ok keys =>
      match dsDelete o keys with
      | (.ok _, tr) => (.ok (), tr ++ [.emit removedEv ks])
      | (.err er, tr) => (.err er, tr)
      | (.panicked, tr) => (.panicked, tr)

/-- EntityStore.RemoveAll: enumerate all keys under parent and kind,
no-op if none, otherwise delete them and emit EntitiesRemoved with the
enumerated keys' logical key strings. -/
def esRemoveAll (es : ES) (o : Oracle) (parentKey : Str) : Outcome Unit × List Act :=
  match esBuildMatch es parentKey with
  | none => (.err .invalidKey, [])
  | some keyMatch =>
    match dsGetKeys o keyMatch with
    | (.err er, tr) => (.err er, tr)
    | (.panicked, tr) => (.panicked, tr)
    | (.ok keys, tr) =>
      if keys.isEmpty then (.ok (), tr)
      else
        match dsDelete o keys with
        | (.ok _, tr2) => (.ok (), tr ++ tr2 ++ [.emit removedEv (keys.map KFKey.key)])
        | (.err er, tr2) => (.err er, tr ++ tr2)
        | (.panicked, tr2) => (.panicked, tr ++ tr2)

/-- EntityStore.Get: no-op (nil result, nil error) for the empty key,
otherwise build, Get and unmarshal; the decoded entity is modelled by
its payload bytes. -/
def esGet (es : ES) (o : Oracle) (k : Str) : Outcome (Option Bytes) × List Act :=
  if k.isEmpty then (.ok none, [])
  else
    match esBuildKey es k with
    | none => (.err .invalidKey, [])
    | some key =>
      match dsGet o key with
      | (.err er, tr) => (.err er, tr)
      | (.panicked, tr) => (.panicked, tr)
      | (.ok d, tr) => if es.decOk d then (.ok (some d), tr) else (.err .unmarshalErr, tr)

/-- Key-building loop of EntityStore.GetByKeys: an empty input key is
skipped by `continue`, which leaves the corresponding slice slot at its
nil zero value. -/
def esPrepOptKeys (es : ES) : List Str → Outcome (List (Option KFKey))
  | [] => .ok []
  | k :: rest =>
    if k.isEmpty then
      match esPrepOptKeys es rest with
      | .ok keys => .ok (none :: keys)
      | .err er => .err er
      | .panicked => .panicked
    else
      match esBuildKey es k with
      | none => .err .invalidKey
      | some key =>
        match esPrepOptKeys es rest with
        | .ok keys => .ok (some key :: keys)
        | .err er => .err er
        | .panicked => .panicked

/-- Unmarshal loop over fetched payloads, aborting on the first decode
failure. -/
def esDecodeAll (es : ES) : List Bytes → Option (List Bytes)
  | [] => some []
  | d :: rest => if es.decOk d then (esDecodeAll es rest).map (d :: ·) else none

/-- EntityStore.GetByKeys: no-op for the empty slice, otherwise build the
key slice (with nil slots for empty input keys), GetMulti, and decode
every returned payload. -/
def esGetByKeys (es : ES) (o : Oracle) (ks : List Str) : Outcome (List Bytes) × List Act :=
  if ks.isEmpty then (.ok [], [])
  else
    match esPrepOptKeys es ks with
    | .err er => (.err er, [])
    | .panicked => (.panicked, [])
    | .ok keys =>
      match dsGetMulti o keys with
      | (.err er, tr) => (.err er, tr)
      | (.panicked, tr) => (.panicked, tr)
      | (.ok data, tr) =>
        match esDecodeAll es data with
        | none => (.err .unmarshalErr, tr)
        | some ents => (.ok ents, tr)

/-- Scan-and-fetch phase of EntityStore.GetWithPagination, after the
limit clamp and the pattern build: SCAN one page, then fetch and decode
the page's entities. -/
def esGWPcore (es : ES) (o : Oracle) (cursor : Nat) (limit : Int)
    (keyMatch : KFKey) : Outcome (Nat × List Bytes) × List Act :=
  match dsScan o cursor limit keyMatch with
  | (.err er, tr) => (.err er, tr)
  | (.panicked, tr) => (.panicked, tr)
  | (.ok (keys, nc), tr) =>
    if keys.isEmpty then (.ok (nc, []), tr)
    else
      match dsGetMulti o (keys.map some) with
      | (.err er, tr2) => (.err er, tr ++ tr2)
      | (.panicked, tr2) => (.panicked, tr ++ tr2)
      | (.ok data, tr2) =>
        match esDecodeAll es data with
        | none => (.err .unmarshalErr, tr ++ tr2)
        | some ents => (.ok (nc, ents), tr ++ tr2)

/-- EntityStore.GetWithPagination: clamp the limit (non-positive or at
least 1000 becomes 1000), build the scope pattern, SCAN one page, fetch
and decode the page's entities. -/
def esGetWithPagination (es : ES) (o : Oracle) (cursor : Nat) (limit : Int)
    (parentKey : Str) : Outcome (Nat × List Bytes) × List Act :=
  match esBuildMatch es parentKey with
  | none => (.err .invalidKey, [])
  | some keyMatch =>
    esGWPcore es o cursor (if limit ≤ 0 ∨ limit ≥ 1000 then 1000 else limit) keyMatch

/-- EntityStore.Exists: no-op returning false for the empty key,
otherwise build and EXISTS. -/
def esExists (es : ES) (o : Oracle) (k : Str) : Outcome Bool × List Act :=
  if k.isEmpty then (.ok false, [])
  else
    match esBuildKey es k with
    | none => (.err .invalidKey, [])
    | some key =>
      match dsExists o key with
      | (.ok b, tr) => (.ok b, tr)
      | (.err er, tr) => (.err er, tr)
      | (.panicked, tr) => (.panicked, tr)

/-- EntityStore.flush: a missing namespace is a log.Panic; otherwise
build the namespace wildcard pattern, DeleteMatch it, and emit
EntitiesFlushed with an empty key list. -/
def esFlush (es : ES) (o : Oracle) : Outcome Unit × List Act :=
  if es.ns.isEmpty then (.panicked, [])
  else
    match KeyBuilder.build ⟨[], [], ['*'], es.ns⟩ with
    | none => (.err .invalidKey, [])
    | some keyMatch =>
      match dsDeleteMatch o keyMatch with
      | (.ok _, tr) => (.ok (), tr ++ [.emit flushedEv []])
      | (.err er, tr) => (.err er, tr)
      | (.panicked, tr) => (.panicked, tr)

/-! ## eventemitter package -/

/-- A registered listener: its registration token and the handler,
modelled by an opaque handler identifier (Go closures have no
Lean-observable body; invocation is recorded, not executed). -/
structure EvListener where
  token : Str
  handler : Nat
deriving DecidableEq, Repr

/-- EventEmitter state: the events map, as an association list from event
name to the listener slice. -/
structure Emitter where
  events : List (Str × List EvListener)
deriving DecidableEq, Repr

/-- Map read `e.events[eventName]` with its ok flag. -/
def evLookup (em : Emitter) (name : Str) : Option (List EvListener) :=
  em.events.lookup name

/-- The current listeners of an event (empty when absent). -/
def evListeners (em : Emitter) (name : Str) : List EvListener :=
  (evLookup em name).getD []

/-- Map write helper: replace the event's listener slice, appending a new
map entry when the event was absent. -/
def evSetEntry : List (Str × List EvListener) → Str → List EvListener →
    List (Str × List EvListener)
  | [], name, ls => [(name, ls)]
  | (n, v) :: rest, name, ls =>
    if n = name then (name, ls) :: rest else (n, v) :: evSetEntry rest name ls

/-- EventEmitter.AddListener: append the new listener to the event's
slice (the Go token is random; the model takes it as an argument). -/
def evAdd (em : Emitter) (name : Str) (l : EvListener) : Emitter :=
  ⟨evSetEntry em.events name (evListeners em name ++ [l])⟩

/-- Removal loop of EventEmitter.RemoveListener: drop the first listener
carrying the token, `none` when no listener matches. -/
def evRemoveTok : List EvListener → Str → Option (List EvListener)
  | [], _ => none
  | l :: rest, tok =>
    if l.token = tok then some rest
    else (evRemoveTok rest tok).map (l :: ·)

/-- EventEmitter.RemoveListener: false when the event or the token is
absent, otherwise remove exactly the first matching registration. -/
def evRemove (em : Emitter) (name : Str) (tok : Str) : Emitter × Bool :=
  match evLookup em name with
  | none => (em, false)
  | some ls =>
    match evRemoveTok ls tok with
    | none => (em, false)
    | some ls' => (⟨evSetEntry em.events name ls'⟩, true)

/-- EventEmitter.Emit: false when the event is absent or has no
listeners, otherwise call every listener in slice order with the emitted
arguments (an invocation is the pair of handler id and argument value)
and return true. -/
def evEmit (em : Emitter) (name : Str) (args : Nat) : List (Nat × Nat) × Bool :=
  match evLookup em name with
  | none => ([], false)
  | some ls =>
    if ls.isEmpty then ([], false)
    else (ls.map (fun l => (l.handler, args)), true)

/-! ## Trace helpers -/

/-- The event emissions of a trace, in order. -/
def emitsOf (tr : List Act) : List (Str × List Str) :=
  tr.filterMap (fun a =>
    match a with
    | .emit n ks => some (n, ks)
    | .call _ => none)

/-- Whether an action is a write command (SET, MSET or DEL). -/
def isWriteCall : Act → Bool
  | .call (.setC _ _ _) => true
  | .call (.msetC _ _) => true
  | .call (.delC _) => true
  | _ => false

/-- No datastore call occurs after an event emission in the trace. -/
def noCallAfterEmit : List Act → Bool
  | [] => true
  | .emit _ _ :: rest =>
    rest.all (fun a =>
      match a with
      | .emit _ _ => true
      | .call _ => false)
  | .call _ :: rest => noCallAfterEmit rest

/-- An always-succeeding store whose KEYS and SCAN enumerate a fixed key
set by glob matching, used to instantiate universally quantified
theorems at concrete stores. -/
def storeOracle (stored : List Str) : Oracle where
  setOk := fun _ _ => true
  msetOk := fun _ => true
  delOk := fun _ => true
  getRes := fun _ => some none
  mgetRes := fun rks => some (rks.map (fun _ => some []))
  keysRes := fun pat => some (stored.filter (globMatch pat))
  scanRes := fun _ _ pat => some (stored.filter (globMatch pat), 0)
  existsRes := fun _ => some false

example : esFlush ⟨"product".toList, "ns".toList, fun _ => true⟩
    (storeOracle ["__ns__:product:p1".toList]) =
    (.ok (), [.call (.keysC "__ns__::*".toList), .emit flushedEv []]) := by decide
example : esGetByKeys ⟨"product".toList, [], fun _ => true⟩
    (storeOracle []) [[], "product:p1".toList] = (.panicked, []) := by decide
example : esAdd ⟨"product".toList, "ns".toList, fun _ => true⟩
    (storeOracle []) ⟨"product:p1".toList, some [1]⟩ 0 =
    (.ok "product:p1".toList,
      [.call (.setC "__ns__:product:p1".toList [1] 0), .emit addedEv ["product:p1".toList]]) := by
  decide

/-! ## Concrete instances used by witnesses and counterexamples -/

/-- A store instance with entity kind product and namespace ns. -/
def esNS : ES := ⟨"product".toList, "ns".toList, fun _ => true⟩

/-- A store instance with entity kind product and no namespace. -/
def esNoNS : ES := ⟨"product".toList, [], fun _ => true⟩

/-! ## Claim C1 -/

/-- C1 (amended): Remove, Get and Exists with the empty key and
GetByKeys/RemoveByKeys with the empty slice return no error, a nil/empty
result (false for Exists), and issue no datastore call and no event; Add
with an entity whose derived key is empty, however, returns a
key-validation error (the builder rejects the empty composed key) — it
still issues no datastore call.  The original claim's assertion that Add
also returns no error is refuted by `c1_counterexample`. -/
theorem c1_empty_input_noops (es : ES) (o : Oracle) (exp : Int) :
    esRemove es o [] = (.ok (), []) ∧
    esGet es o [] = (.ok none, []) ∧
    esExists es o [] = (.ok false, []) ∧
    esGetByKeys es o [] = (.ok [], []) ∧
    esRemoveByKeys es o [] = (.ok (), []) ∧
    ∀ e : Ent, e.key = [] → esAdd es o e exp = (.err .invalidKey, []) := by
  refine ⟨rfl, rfl, rfl, rfl, rfl, fun e he => ?_⟩
  simp only [esAdd, esBuildKey, he, KeyBuilder.build]
  cases h : kfValidateOptionalKeysOk [[], [], es.ns] <;>
    simp [h, KeyBuilder.body, KeyBuilder.preBody, rkBuild, rkJoin, rkBuildMatchKeyPattern]

/-- Witness for C1: the amended statement applied to a concrete store,
oracle and empty-keyed entity. -/
theorem c1_empty_input_noops_witness :
    (⟨[], some []⟩ : Ent).key = [] ∧
    esAdd esNS (storeOracle []) ⟨[], some []⟩ 0 = (.err .invalidKey, []) :=
  ⟨rfl, (c1_empty_input_noops esNS (storeOracle []) 0).2.2.2.2.2 ⟨[], some []⟩ rfl⟩

/-- C1 counterexample: Add called with an entity whose derived key is the
empty string returns a key-validation error, contradicting the claim
that it returns no error. -/
theorem c1_counterexample :
    esAdd esNS (storeOracle []) ⟨[], some []⟩ 0 = (.err .invalidKey, []) := by
  decide

/-! ## Claim C2 -/

/-- C2 (code bug): with a non-empty namespace, flush builds its pattern
from an empty key body plus the wildcard, rendering `__ns__::*` (note
the doubled delimiter).  Every key this store writes has the form
`__ns__:body` with a body that cannot start with the delimiter, so the
pattern matches none of them: a successful flush deletes nothing and
still emits EntitiesFlushed.  This contradicts flush's own doc comment
("deletes all keys in the key namespace") and the claim.  The empty
namespace panic branch of the claim does hold.  Concretely: Add writes
`__ns__:product:p1`; flush against a store containing exactly that key
issues only KEYS `__ns__::*`, no DEL, and the pattern does not match the
stored key; flush without a namespace panics. -/
theorem c2_flush_deletes_nothing :
    esAdd esNS (storeOracle []) ⟨"product:p1".toList, some [1]⟩ 0 =
      (.ok "product:p1".toList,
        [.call (.setC "__ns__:product:p1".toList [1] 0),
         .emit addedEv ["product:p1".toList]]) ∧
    esFlush esNS (storeOracle ["__ns__:product:p1".toList]) =
      (.ok (), [.call (.keysC "__ns__::*".toList), .emit flushedEv []]) ∧
    globMatch "__ns__::*".toList "__ns__:product:p1".toList = false ∧
    globMatch "__ns__:*".toList "__ns__:product:p1".toList = true ∧
    esFlush esNoNS (storeOracle []) = (.panicked, []) := by
  decide

/-! ## Claim C10 -/

/-- C10 (code bug): GetByKeys with an empty key among non-empty ones
"skips" the empty key with continue, but that leaves a nil slot in the
key slice handed to GetMulti, whose rendering loop dereferences the nil
pointer: the call is a runtime panic, not a total operation. -/
theorem c10_getbykeys_nil_slot_panics :
    esGetByKeys esNoNS (storeOracle []) [[], "product:p1".toList] = (.panicked, []) ∧
    esGetByKeys esNoNS (storeOracle []) ["product:p1".toList] =
      (.ok [[]], [.call (.mgetC ["product:p1".toList])]) := by
  decide

/-! ## Claim C4 -/

/-- Preparation failure of AddBatch: an entity with an invalid key or a
failing marshal makes the whole preparation loop return an error. -/
theorem esPrepBatch_err (es : ES) (ents : List Ent)
    (h : ∃ e ∈ ents, esBuildKey es e.key = none ∨ e.data = none) :
    ∃ er, esPrepBatch es ents = .err er := by
  induction ents with
  | nil => simp at h
  | cons e rest ih =>
    obtain ⟨e', he', hbad⟩ := h
    rcases List.mem_cons.1 he' with rfl | hmem
    · rcases hbad with hk | hd
      · exact ⟨.invalidKey, by simp [esPrepBatch, hk]⟩
      · cases hb : esBuildKey es e'.key with
        | none => exact ⟨.invalidKey, by simp [esPrepBatch, hb]⟩
        | some k => exact ⟨.marshalErr, by simp [esPrepBatch, hb, hd]⟩
    · obtain ⟨er, hrest⟩ := ih ⟨e', hmem, hbad⟩
      cases hb : esBuildKey es e.key with
      | none => exact ⟨.invalidKey, by simp [esPrepBatch, hb]⟩
      | some k =>
        cases hd : e.data with
        | none => exact ⟨.marshalErr, by simp [esPrepBatch, hb, hd]⟩
        | some d => exact ⟨er, by simp [esPrepBatch, hb, hd, hrest]⟩

/-- C4: if any entity of a non-empty batch yields an invalid key or
fails serialization, AddBatch returns an error with an empty trace — no
datastore call (in particular no write) is issued and no event is
emitted, so the stored state is unchanged. -/
theorem c4_addbatch_all_or_nothing (es : ES) (o : Oracle) (ents : List Ent) (exp : Int)
    (h : ∃ e ∈ ents, esBuildKey es e.key = none ∨ e.data = none) :
    ∃ er, esAddBatch es o ents exp = (.err er, []) := by
  obtain ⟨er, hp⟩ := esPrepBatch_err es ents h
  have hne : ents ≠ [] := by rintro rfl; simp at h
  exact ⟨er, by simp [esAddBatch, hp, hne]⟩

/-- Witness for C4: a batch containing an entity whose key carries the
reserved namespace prefix aborts with an error and an empty trace. -/
theorem c4_addbatch_all_or_nothing_witness :
    (∃ e ∈ [(⟨"ok:1".toList, some []⟩ : Ent), ⟨"__bad".toList, some []⟩],
      esBuildKey esNS e.key = none ∨ e.data = none) ∧
    ∃ er, esAddBatch esNS (storeOracle [])
      [⟨"ok:1".toList, some []⟩, ⟨"__bad".toList, some []⟩] 0 = (.err er, []) :=
  ⟨by decide,
   c4_addbatch_all_or_nothing esNS (storeOracle [])
     [⟨"ok:1".toList, some []⟩, ⟨"__bad".toList, some []⟩] 0 (by decide)⟩

/-! ## Claim C7 -/

/-- The collection loop of rediskey.New, characterized globally: it
fails exactly when some non-empty fragment contains the delimiter, and
otherwise yields the lower-cased non-empty fragments in order. -/
theorem rkNewCollect_eq (frags : List Str) :
    rkNewCollect frags =
      if frags.any (fun f => !f.isEmpty && f.contains ':') then none
      else some ((frags.filter (fun f => !f.isEmpty)).map (List.map Char.toLower)) := by
  induction frags with
  | nil => rfl
  | cons f fs ih =>
    by_cases he : f = []
    · subst he; simp [rkNewCollect, ih]
    · by_cases hc : ':' ∈ f
      · simp [rkNewCollect, he, hc]
      · simp only [rkNewCollect, ih, List.any_cons, List.filter_cons]
        simp [he, hc]
        split
        next h => simp [h]
        next h => simp [h]

/-- rediskey.New as the specification words it: skip empty fragments,
lower-case each fragment, fail if any non-empty fragment contains the
delimiter, join the survivors with the delimiter, validate the result. -/
def rkNewSpec (frags : List Str) : Option Str :=
  if frags.any (fun f => !f.isEmpty && f.contains ':') then none
  else
    let key := rkJoin ((frags.filter (fun f => !f.isEmpty)).map (List.map Char.toLower))
    if rkValidate key then some key else none

/-- C7: rediskey.New behaves exactly as the specification describes it
(and, being a pure function of the fragment sequence, it is
deterministic: equal fragment sequences always yield the same canonical
key string). -/
theorem c7_new_matches_spec (frags : List Str) : rkNew frags = rkNewSpec frags := by
  unfold rkNew rkNewSpec
  rw [rkNewCollect_eq]
  by_cases h : ∃ x ∈ frags, ¬x = [] ∧ ':' ∈ x
  · simp [h]
  · simp [h]

/-! ## Claim C8 -/

/-- Writing an event entry makes it the one the map lookup finds. -/
theorem evSetEntry_lookup (evs : List (Str × List EvListener)) (name : Str)
    (ls : List EvListener) : (evSetEntry evs name ls).lookup name = some ls := by
  induction evs with
  | nil => simp [evSetEntry]
  | cons nv rest ih =>
    by_cases h : nv.1 = name
    · simp [evSetEntry, h]
    · have hb : (name == nv.1) = false := by
        simp only [beq_eq_false_iff_ne, ne_eq]
        exact fun e => h e.symm
      simp [evSetEntry, h, List.lookup, ih, hb]

/-- The removal loop drops exactly the first listener carrying the
token, preserving every other listener and their order. -/
theorem evRemoveTok_spec (ls : List EvListener) (tok : Str) (ls' : List EvListener)
    (h : evRemoveTok ls tok = some ls') :
    ∃ pre x post, ls = pre ++ x :: post ∧ x.token = tok ∧ ls' = pre ++ post ∧
      ∀ y ∈ pre, y.token ≠ tok := by
  induction ls generalizing ls' with
  | nil => simp [evRemoveTok] at h
  | cons a rest ih =>
    by_cases ha : a.token = tok
    · simp only [evRemoveTok, if_pos ha, Option.some_inj] at h
      exact ⟨[], a, rest, by simp, ha, by simp [h], by simp⟩
    · simp only [evRemoveTok, if_neg ha, Option.map_eq_some'] at h
      obtain ⟨ls'', h1, h2⟩ := h
      obtain ⟨pre, x, post, hsplit, hx, hls, hpre⟩ := ih ls'' h1
      refine ⟨a :: pre, x, post, by simp [hsplit], hx, by simp [h2.symm, hls], ?_⟩
      intro y hy
      rcases List.mem_cons.1 hy with rfl | hy'
      · exact ha
      · exact hpre y hy'

/-- C8: Emit invokes exactly the listeners registered for the event and
not yet removed at emit time (the event's current slice), in
registration order, each with the emitted arguments, and returns true
iff at least one such listener existed; AddListener appends to the
slice, so slice order is registration order, and RemoveListener removes
exactly the first registration carrying the token.  Invocation is
modelled by the ordered invocation list that Emit performs on the
calling thread. -/
theorem c8_emit_invokes_all (em : Emitter) (name : Str) (args : Nat) (l : EvListener)
    (tok : Str) :
    evEmit em name args =
      ((evListeners em name).map (fun x => (x.handler, args)),
        !(evListeners em name).isEmpty) ∧
    evListeners (evAdd em name l) name = evListeners em name ++ [l] ∧
    (∀ ls', evRemoveTok (evListeners em name) tok = some ls' →
      evListeners (evRemove em name tok).1 name = ls' ∧
      ∃ pre x post, evListeners em name = pre ++ x :: post ∧ x.token = tok ∧
        ls' = pre ++ post ∧ ∀ y ∈ pre, y.token ≠ tok) := by
  refine ⟨?_, ?_, ?_⟩
  · unfold evEmit evListeners evLookup
    cases h : em.events.lookup name with
    | none => simp
    | some ls =>
      by_cases he : ls.isEmpty
      · have : ls = [] := by simpa [List.isEmpty_iff] using he
        simp [this]
      · simp [he]
  · unfold evAdd evListeners evLookup
    simp [evSetEntry_lookup]
  · intro ls' h
    refine ⟨?_, evRemoveTok_spec _ _ _ h⟩
    unfold evRemove
    cases hl : evLookup em name with
    | none =>
      rw [show evListeners em name = [] from by simp [evListeners, hl]] at h
      simp [evRemoveTok] at h
    | some ls =>
      rw [show evListeners em name = ls from by simp [evListeners, hl]] at h
      simp only [h]
      simp [evListeners, evLookup, evSetEntry_lookup]

/-- Witness for C8: a two-listener emitter emits both in order, and
removal by token removes exactly the matching registration. -/
theorem c8_emit_invokes_all_witness :
    (evRemoveTok (evListeners ⟨[(addedEv, [⟨"t1".toList, 1⟩, ⟨"t2".toList, 2⟩])]⟩ addedEv)
        "t1".toList = some [⟨"t2".toList, 2⟩]) ∧
    evEmit ⟨[(addedEv, [⟨"t1".toList, 1⟩, ⟨"t2".toList, 2⟩])]⟩ addedEv 7 =
      ([(1, 7), (2, 7)], true) ∧
    evListeners (evRemove ⟨[(addedEv, [⟨"t1".toList, 1⟩, ⟨"t2".toList, 2⟩])]⟩ addedEv
        "t1".toList).1 addedEv = [⟨"t2".toList, 2⟩] := by
  have h := c8_emit_invokes_all ⟨[(addedEv, [⟨"t1".toList, 1⟩, ⟨"t2".toList, 2⟩])]⟩
    addedEv 7 ⟨"t3".toList, 3⟩ "t1".toList
  exact ⟨by decide, by rw [h.1]; decide, (h.2.2 [⟨"t2".toList, 2⟩] (by decide)).1⟩

/-! ## Claim C9 -/

/-- The trace of one SCAN request: whatever the oracle answers, exactly
one scan call goes out, carrying the cursor, the datastore-layer
clamped limit and the rendered pattern. -/
theorem dsScan_trace (o : Oracle) (cursor : Nat) (limit : Int) (km : KFKey) :
    (dsScan o cursor limit km).2 =
      [.call (.scanC cursor (if limit ≤ 0 ∨ limit > 1000 then 1000 else limit)
        km.redisKey)] := by
  unfold dsScan
  cases h : o.scanRes cursor (if limit ≤ 0 ∨ limit > 1000 then 1000 else limit)
      km.redisKey with
  | none => simp [h]
  | some p =>
    obtain ⟨rsKeys, nc⟩ := p
    cases hp : parseAllKeys rsKeys <;> simp [h, hp]

/-- A GetMulti trace never contains a scan call. -/
theorem dsGetMulti_no_scan (o : Oracle) (keys : List (Option KFKey)) (cu : Nat)
    (l : Int) (pat : Str) :
    Act.call (.scanC cu l pat) ∉ (dsGetMulti o keys).2 := by
  unfold dsGetMulti
  by_cases he : keys.isEmpty
  · simp [he]
  · by_cases hn : keys.any (·.isNone)
    · simp [he, hn]
    · cases h : o.mgetRes (keys.filterMap (fun k? => k?.map KFKey.redisKey)) <;>
        simp [he, hn, h]

/-- Every scan call issued by the scan-and-fetch phase carries the
caller's cursor and the doubly clamped limit. -/
theorem esGWPcore_scan_mem (es : ES) (o : Oracle) (cursor : Nat) (L : Int) (km : KFKey)
    (cu : Nat) (l : Int) (pat : Str)
    (hmem : Act.call (.scanC cu l pat) ∈ (esGWPcore es o cursor L km).2) :
    cu = cursor ∧ l = (if L ≤ 0 ∨ L > 1000 then 1000 else L) := by
  unfold esGWPcore at hmem
  rcases hs : dsScan o cursor L km with ⟨res, tr⟩
  have htr : tr = [.call (.scanC cursor (if L ≤ 0 ∨ L > 1000 then 1000 else L)
      km.redisKey)] := by
    have h := dsScan_trace o cursor L km
    rw [hs] at h
    exact h
  rw [hs] at hmem
  rcases res with a | e | _
  · obtain ⟨keys, nc⟩ := a
    by_cases hke : keys.isEmpty
    · simp only [hke, if_true] at hmem
      rw [htr] at hmem
      simp at hmem
      exact ⟨hmem.1, hmem.2.1⟩
    · simp only [hke, if_false] at hmem
      rcases hm : dsGetMulti o (keys.map some) with ⟨res2, tr2⟩
      rw [hm] at hmem
      have hnm : Act.call (.scanC cu l pat) ∉ tr2 := by
        have h := dsGetMulti_no_scan o (keys.map some) cu l pat
        rw [hm] at h
        exact h
      have hin : Act.call (.scanC cu l pat) ∈ tr := by
        rcases res2 with d | e2 | _
        · cases hd : esDecodeAll es d <;> simp only [hd] at hmem <;>
            rcases List.mem_append.1 hmem with h | h
          · exact h
          · exact absurd h hnm
          · exact h
          · exact absurd h hnm
        · rcases List.mem_append.1 hmem with h | h
          · exact h
          · exact absurd h hnm
        · rcases List.mem_append.1 hmem with h | h
          · exact h
          · exact absurd h hnm
      rw [htr] at hin
      simp at hin
      exact ⟨hin.1, hin.2.1⟩
  · rw [htr] at hmem
    simp at hmem
    exact ⟨hmem.1, hmem.2.1⟩
  · rw [htr] at hmem
    simp at hmem
    exact ⟨hmem.1, hmem.2.1⟩

/-- C9: every scan request GetWithPagination issues carries the caller's
cursor and a limit of exactly 1000 when the caller's limit is
non-positive or at least 1000, and the caller's limit unchanged when it
lies strictly between 0 and 1000. -/
theorem c9_pagination_limit_clamp (es : ES) (o : Oracle) (cursor : Nat) (limit : Int)
    (pk : Str) (cu : Nat) (l : Int) (pat : Str)
    (hmem : Act.call (.scanC cu l pat) ∈ (esGetWithPagination es o cursor limit pk).2) :
    cu = cursor ∧ l = (if limit ≤ 0 ∨ limit ≥ 1000 then 1000 else limit) := by
  unfold esGetWithPagination at hmem
  cases hb : esBuildMatch es pk with
  | none => rw [hb] at hmem; simp at hmem
  | some km =>
    simp only [hb] at hmem
    have h := esGWPcore_scan_mem es o cursor
      (if limit ≤ 0 ∨ limit ≥ 1000 then 1000 else limit) km cu l pat hmem
    refine ⟨h.1, ?_⟩
    rw [h.2]
    split_ifs <;> omega

/-- Witness for C9: a concrete pagination call with limit 5000 issues
its scan with limit 1000. -/
theorem c9_pagination_limit_clamp_witness :
    (Act.call (.scanC 0 1000 "ns:product:*".toList) ∈
      (esGetWithPagination esNoNS (storeOracle []) 0 5000 "ns".toList).2) ∧
    ((0 : Nat) = 0 ∧
      (1000 : Int) = if (5000 : Int) ≤ 0 ∨ (5000 : Int) ≥ 1000 then 1000 else 5000) :=
  ⟨by decide,
   c9_pagination_limit_clamp esNoNS (storeOracle []) 0 5000 "ns".toList 0 1000
     "ns:product:*".toList (by decide)⟩


/-! ## Claim C3 -/

/-- NewKey always stores the given logical key unchanged. -/
theorem kfNewKey_key (key ns : Str) : (kfNewKey key ns).key = key := by
  unfold kfNewKey
  split <;> rfl

/-- Joining a pair as the Go Build loop does. -/
theorem rkBuild_pair (p k : Str) :
    rkBuild [p, k] = if p = [] then k else if k = [] then p else p ++ ':' :: k := by
  by_cases hp : p = [] <;> by_cases hk : k = [] <;>
    simp [rkBuild, rkJoin, hp, hk]

/-- Membership form of a passed validateOptionalKeys check. -/
theorem validOpt_mem {keys : List Str} (h : kfValidateOptionalKeysOk keys = true)
    {x : Str} (hx : x ∈ keys) :
    x = [] ∨ (rkValidate x = true ∧ resNSDelim.isPrefixOf x = false) := by
  unfold kfValidateOptionalKeysOk kfValidateKeyFragmentsOk at h
  rw [Bool.and_eq_true, List.all_eq_true, List.all_eq_true] at h
  by_cases he : x = []
  · exact Or.inl he
  · refine Or.inr ⟨?_, ?_⟩
    · have := h.2 x hx
      simpa [he] using this
    · have := h.1 x hx
      simpa [he] using this

/-- Component form of a passed rediskey validation. -/
theorem rkValidate_spec {k : Str} (h : rkValidate k = true) :
    k ≠ [] ∧ k.length ≤ 1024 ∧ (∀ c ∈ k, isAllowedChar c = true) ∧
    k.head? ≠ some ':' ∧ k.getLast? ≠ some ':' := by
  unfold rkValidate at h
  simp only [Bool.and_eq_true, Bool.not_eq_true', beq_eq_false_iff_ne, ne_eq,
    List.isEmpty_eq_false, decide_eq_true_eq, List.all_eq_true] at h
  exact ⟨h.1.1.1.1, h.1.1.1.2, h.1.1.2, h.1.2, h.2⟩

/-- Appending a non-underscore character and anything after it does not
change whether a string starts with the reserved delimiter. -/
theorem resNSDelim_prefix_append (p rest : Str) {x : Char} (hx : ('_' == x) = false) :
    resNSDelim.isPrefixOf (p ++ x :: rest) = resNSDelim.isPrefixOf p := by
  match p with
  | [] => simp [resNSDelim, List.isPrefixOf, hx]
  | [a] => simp [resNSDelim, List.isPrefixOf, hx]
  | a :: b :: t => simp [resNSDelim, List.isPrefixOf]

/-- Structural invariants of a validated non-empty body part. -/
def GoodBase (s : Str) : Prop :=
  s ≠ [] ∧ (∀ c ∈ s, isAllowedChar c = true) ∧ s.head? ≠ some ':' ∧
  s.getLast? ≠ some ':' ∧ resNSDelim.isPrefixOf s = false

/-- A validated argument (which passed the reserved-prefix check) is a
good base. -/
theorem goodBase_single {x : Str} (hv : rkValidate x = true)
    (hp : resNSDelim.isPrefixOf x = false) : GoodBase x :=
  ⟨(rkValidate_spec hv).1, (rkValidate_spec hv).2.2.1, (rkValidate_spec hv).2.2.2.1,
    (rkValidate_spec hv).2.2.2.2, hp⟩

/-- Joining two good bases with the delimiter yields a good base. -/
theorem goodBase_join {p k0 : Str} (hp : GoodBase p) (hk : GoodBase k0) :
    GoodBase (p ++ ':' :: k0) := by
  refine ⟨by simp, ?_, ?_, ?_, ?_⟩
  · intro c hc
    rcases List.mem_append.1 hc with h | h
    · exact hp.2.1 c h
    · rcases List.mem_cons.1 h with rfl | h
      · decide
      · exact hk.2.1 c h
  · rw [List.head?_append_of_ne_nil _ hp.1]
    exact hp.2.2.1
  · rw [List.getLast?_append_of_ne_nil _ (show (':' :: k0) ≠ [] by simp),
      show (':' :: k0) = [':'] ++ k0 from rfl,
      List.getLast?_append_of_ne_nil _ hk.1]
    exact hk.2.2.2.1
  · rw [resNSDelim_prefix_append _ _ (by decide)]
    exact hp.2.2.2.2

/-- Eliminating a successful build: validation passed, the composed body
is non-empty, and the Key wraps that body. -/
theorem build_some {b : KeyBuilder} {k : KFKey} (hb : b.build = some k) :
    kfValidateOptionalKeysOk [b.key, b.parentKey, b.ns] = true ∧ b.body ≠ [] ∧
    k = kfNewKey b.body b.ns := by
  unfold KeyBuilder.build at hb
  cases hv : kfValidateOptionalKeysOk [b.key, b.parentKey, b.ns] with
  | false => simp [hv] at hb
  | true =>
    rw [if_pos hv] at hb
    by_cases hbe : b.body.isEmpty = true
    · rw [if_pos hbe] at hb
      cases hb
    · rw [if_neg hbe] at hb
      refine ⟨rfl, ?_, (Option.some_inj.1 hb).symm⟩
      simpa [List.isEmpty_iff] using hbe

/-- Shape of the body once the wildcard glyph is appended. -/
theorem bodyWild_props (s : Str) (w : Char) (hwa : isAllowedChar w = true)
    (hwu : ('_' == w) = false) (hwc : w ≠ ':')
    (hs : s = [] ∨ GoodBase s) :
    s ++ ':' :: [w] ≠ [] ∧
    (∀ c ∈ s ++ ':' :: [w], isAllowedChar c = true) ∧
    (s ++ ':' :: [w]).getLast? = some w ∧
    resNSDelim.isPrefixOf (s ++ ':' :: [w]) = false ∧
    (s ≠ [] → (s ++ ':' :: [w]).head? ≠ some ':') := by
  refine ⟨by simp, ?_, ?_, ?_, ?_⟩
  · intro c hc
    rcases List.mem_append.1 hc with h | h
    · rcases hs with rfl | hg
      · simp at h
      · exact hg.2.1 c h
    · rcases List.mem_cons.1 h with rfl | h
      · decide
      · simp only [List.mem_singleton] at h
        subst h
        exact hwa
  · rw [List.getLast?_append_of_ne_nil _ (show (':' :: [w]) ≠ [] by simp),
      show (':' :: [w]) = [':'] ++ [w] from rfl,
      List.getLast?_append_of_ne_nil _ (show ([w] : Str) ≠ [] by simp)]
    rfl
  · rcases hs with rfl | hg
    · simp [resNSDelim, List.isPrefixOf]
    · rw [resNSDelim_prefix_append _ _ (by decide)]
      exact hg.2.2.2.2
  · intro hne
    rcases hs with rfl | hg
    · exact absurd rfl hne
    · rw [List.head?_append_of_ne_nil _ hg.1]
      exact hg.2.2.1

/-- C3 (amended): a Key successfully produced by Build/BuildAndReset
(with the wildcard unset or one of the two declared glyphs) has a
non-empty body of at most 2051 characters (each validated input is at
most 1024 characters, but parent and key compose additively, so the
original 1024-character bound fails — see `c3_counterexample`), made of
allowed characters only, never ending with the delimiter, and never
itself beginning with the reserved namespace token; it begins with the
delimiter only in the degenerate wildcard-only build (key and parent
both empty), and an interior delimiter-separated fragment of the body
may still begin with the reserved token (also refuted concretely in
`c3_counterexample`), since the builder checks that prefix only against
each whole argument. -/
theorem c3_built_key_invariants (b : KeyBuilder) (k : KFKey)
    (hw : b.wildcard = [] ∨ b.wildcard = ['*'] ∨ b.wildcard = ['?'])
    (hb : b.build = some k) :
    k.key ≠ [] ∧
    k.key.length ≤ 2051 ∧
    (∀ c ∈ k.key, isAllowedChar c = true) ∧
    k.key.getLast? ≠ some ':' ∧
    resNSDelim.isPrefixOf k.key = false ∧
    ((b.key ≠ [] ∨ b.parentKey ≠ []) → k.key.head? ≠ some ':') := by
  obtain ⟨hv, hne, hk⟩ := build_some hb
  subst hk
  simp only [kfNewKey_key]
  have hkey := validOpt_mem hv (List.mem_cons_self _ _)
  have hpar := validOpt_mem hv (List.mem_cons_of_mem _ (List.mem_cons_self _ _))
  have hklen : b.key.length ≤ 1024 := by
    rcases hkey with h | ⟨h, _⟩
    · rw [h]; simp
    · exact (rkValidate_spec h).2.1
  have hplen : b.parentKey.length ≤ 1024 := by
    rcases hpar with h | ⟨h, _⟩
    · rw [h]; simp
    · exact (rkValidate_spec h).2.1
  have hprelen : b.preBody.length ≤ 2049 := by
    rw [KeyBuilder.preBody, rkBuild_pair]
    split_ifs
    · omega
    · omega
    · simp only [List.length_append, List.length_cons]
      omega
  have hpree : (b.key ≠ [] ∨ b.parentKey ≠ []) → b.preBody ≠ [] := by
    rw [KeyBuilder.preBody, rkBuild_pair]
    intro hor
    split_ifs with h1 h2
    · rcases hor with h | h
      · exact h
      · exact absurd h1 h
    · rcases hpar with h | ⟨h, _⟩
      · exact absurd h h1
      · exact (rkValidate_spec h).1
    · simp
  have hpre : b.preBody = [] ∨ GoodBase b.preBody := by
    rw [KeyBuilder.preBody, rkBuild_pair]
    rcases hpar with hp0 | ⟨hpv, hpp⟩
    · rcases hkey with hk0 | ⟨hkv, hkp⟩
      · left; simp [hp0, hk0]
      · right; rw [if_pos hp0]; exact goodBase_single hkv hkp
    · have hpne := (rkValidate_spec hpv).1
      rcases hkey with hk0 | ⟨hkv, hkp⟩
      · right; rw [if_neg hpne, if_pos hk0]; exact goodBase_single hpv hpp
      · right; rw [if_neg hpne, if_neg (rkValidate_spec hkv).1]
        exact goodBase_join (goodBase_single hpv hpp) (goodBase_single hkv hkp)
  rcases hw with hwc | hwc | hwc
  · -- no wildcard: the body is the joined parent and key
    have hbody : b.body = b.preBody := by rw [KeyBuilder.body, hwc]; rfl
    rw [hbody] at hne ⊢
    rcases hpre with he | hg
    · exact absurd he hne
    · exact ⟨hg.1, le_trans hprelen (by norm_num), hg.2.1, hg.2.2.2.1, hg.2.2.2.2,
        fun _ => hg.2.2.1⟩
  -- wildcard glyphs: the body is the joined base plus delimiter and glyph
  · have hbody : b.body = b.preBody ++ ':' :: ['*'] := by rw [KeyBuilder.body, hwc]; rfl
    rw [hbody]
    obtain ⟨h1, h2, h3, h4, h5⟩ :=
      bodyWild_props b.preBody '*' (by decide) (by decide) (by decide)
        (by rcases hpre with h | h; exacts [Or.inl h, Or.inr h])
    refine ⟨h1, ?_, h2, by rw [h3]; decide, h4, fun hor => h5 (hpree hor)⟩
    simp only [List.length_append, List.length_cons, List.length_nil]
    omega
  · have hbody : b.body = b.preBody ++ ':' :: ['?'] := by rw [KeyBuilder.body, hwc]; rfl
    rw [hbody]
    obtain ⟨h1, h2, h3, h4, h5⟩ :=
      bodyWild_props b.preBody '?' (by decide) (by decide) (by decide)
        (by rcases hpre with h | h; exacts [Or.inl h, Or.inr h])
    refine ⟨h1, ?_, h2, by rw [h3]; decide, h4, fun hor => h5 (hpree hor)⟩
    simp only [List.length_append, List.length_cons, List.length_nil]
    omega

/-- Witness for C3: the amended invariants hold of a concrete build with
parent key, namespace and wildcard. -/
theorem c3_built_key_invariants_witness :
    ((⟨"entity".toList, "tenant:t1".toList, ['*'], "ns".toList⟩ : KeyBuilder).wildcard = [] ∨
      (⟨"entity".toList, "tenant:t1".toList, ['*'], "ns".toList⟩ : KeyBuilder).wildcard = ['*'] ∨
      (⟨"entity".toList, "tenant:t1".toList, ['*'], "ns".toList⟩ : KeyBuilder).wildcard = ['?']) ∧
    (KeyBuilder.build ⟨"entity".toList, "tenant:t1".toList, ['*'], "ns".toList⟩ =
      some ⟨"tenant:t1:entity:*".toList, "__ns__".toList⟩) ∧
    ("tenant:t1:entity:*".toList ≠ [] ∧
      "tenant:t1:entity:*".toList.length ≤ 2051 ∧
      (∀ c ∈ "tenant:t1:entity:*".toList, isAllowedChar c = true) ∧
      "tenant:t1:entity:*".toList.getLast? ≠ some ':' ∧
      resNSDelim.isPrefixOf "tenant:t1:entity:*".toList = false ∧
      (((⟨"entity".toList, "tenant:t1".toList, ['*'], "ns".toList⟩ : KeyBuilder).key ≠ [] ∨
        (⟨"entity".toList, "tenant:t1".toList, ['*'], "ns".toList⟩ : KeyBuilder).parentKey ≠ []) →
        "tenant:t1:entity:*".toList.head? ≠ some ':')) :=
  ⟨by decide, by decide,
   c3_built_key_invariants ⟨"entity".toList, "tenant:t1".toList, ['*'], "ns".toList⟩
     ⟨"tenant:t1:entity:*".toList, "__ns__".toList⟩ (by decide) (by decide)⟩

set_option maxRecDepth 40000 in
/-- C3 counterexample: three of the claimed invariants fail on
successfully built keys.  (1) the key `a:__b` builds successfully though
its second delimiter-separated fragment begins with the reserved token;
(2) a 1024-character parent with a one-character key builds a body of
1026 characters, beyond the claimed 1024 bound; (3) the wildcard-only
build used by flush yields the body `:*`, which begins with the
delimiter. -/
theorem c3_counterexample :
    (KeyBuilder.build ⟨"a:__b".toList, [], [], []⟩ = some ⟨"a:__b".toList, []⟩ ∧
      rkParse "a:__b".toList = ["a".toList, "__b".toList] ∧
      resNSDelim.isPrefixOf "__b".toList = true) ∧
    (KeyBuilder.build ⟨"b".toList, List.replicate 1024 'a', [], []⟩ =
        some ⟨List.replicate 1024 'a' ++ ':' :: "b".toList, []⟩ ∧
      (List.replicate 1024 'a' ++ ':' :: "b".toList).length = 1026) ∧
    (KeyBuilder.build ⟨[], [], ['*'], "n".toList⟩ = some ⟨":*".toList, "__n__".toList⟩ ∧
      ":*".toList.head? = some ':') := by
  refine ⟨by decide, ⟨?_, by simp [List.length_append]⟩, by decide⟩
  decide

/-! ## Claim C6 -/

/-- takeWhile runs through a fully satisfying block into the rest. -/
theorem takeWhile_append_of_all {p : Char → Bool} (l l' : Str) (h : l.all p = true) :
    (l ++ l').takeWhile p = l ++ l'.takeWhile p := by
  induction l with
  | nil => simp
  | cons a t ih =>
    rw [List.all_cons, Bool.and_eq_true] at h
    simp [List.takeWhile_cons, h.1, ih h.2]

/-- Word characters are allowed key characters. -/
theorem isAllowedChar_of_isWordChar {c : Char} (h : isWordChar c = true) :
    isAllowedChar c = true := by
  unfold isWordChar at h
  unfold isAllowedChar
  rw [Bool.or_eq_true, Bool.or_eq_true] at h
  rcases h with (h | h) | h <;> simp [h]

/-- Characters of the reserved delimiter are the underscore. -/
theorem mem_resNSDelim {c : Char} (h : c ∈ resNSDelim) : c = '_' := by
  rcases List.mem_cons.1 h with rfl | h1
  · rfl
  · simpa [resNSDelim] using h1

/-- The rendered form of a namespaced key produced by the store. -/
theorem redisKey_wrapped (ns body : Str) (hns1 : ns ≠ [])
    (hns3 : ns.map Char.toLower = ns) (hns4 : resNSDelim.isPrefixOf ns = false)
    (hbne : body ≠ []) :
    (kfNewKey body ns).redisKey = (resNSDelim ++ ns ++ resNSDelim) ++ ':' :: body ∧
    kfNewKey body ns = ⟨body, resNSDelim ++ ns ++ resNSDelim⟩ := by
  have hA : kfNewKey body ns = ⟨body, resNSDelim ++ ns ++ resNSDelim⟩ := by
    unfold kfNewKey kfKeyNamespace
    rw [if_neg (by simp [hns4]), if_neg (by simp [List.isEmpty_iff, hns1]), hns3]
  refine ⟨?_, hA⟩
  rw [hA]
  unfold KFKey.redisKey
  rw [rkBuild_pair]
  rw [if_neg (by simp [resNSDelim]), if_neg hbne]

/-- C6 (amended): for a namespace made of lowercase word characters
(letters, digits, underscore; no other allowed punctuation, no
uppercase) that does not begin with the reserved token, and any valid
key body, with the rendered key within the 1024-character limit,
rendering the namespaced Key and parsing it back recovers the Key
unchanged.  The restriction of the namespace alphabet is forced: the
parser regexp only recognises word characters inside the wrappers,
while namespace validation admits all key characters — see
`c6_counterexample`. -/
theorem c6_namespace_roundtrip (ns body : Str)
    (hns1 : ns ≠ [])
    (hns2 : ns.all isWordChar = true)
    (hns3 : ns.map Char.toLower = ns)
    (hns4 : resNSDelim.isPrefixOf ns = false)
    (hbody : rkValidate body = true)
    (hlen : ns.length + body.length + 5 ≤ 1024) :
    kfParseRedisKey (kfNewKey body ns).redisKey = some (kfNewKey body ns) := by
  obtain ⟨hbne, _, hball, _, hblast⟩ := rkValidate_spec hbody
  obtain ⟨hR, hA⟩ := redisKey_wrapped ns body hns1 hns3 hns4 hbne
  rw [hR, hA]
  have hcons : (resNSDelim ++ ns ++ resNSDelim) ++ ':' :: body =
      '_' :: '_' :: ((ns ++ resNSDelim) ++ ':' :: body) := by
    simp [resNSDelim]
  have hnsWlen : (resNSDelim ++ ns ++ resNSDelim).length = ns.length + 4 := by
    simp only [List.length_append, resNSDelim, List.length_cons, List.length_nil]
    omega
  -- validation of the rendered key
  have hvalid : rkValidate ((resNSDelim ++ ns ++ resNSDelim) ++ ':' :: body) = true := by
    unfold rkValidate
    rw [Bool.and_eq_true, Bool.and_eq_true, Bool.and_eq_true, Bool.and_eq_true]
    refine ⟨⟨⟨⟨?_, ?_⟩, ?_⟩, ?_⟩, ?_⟩
    · rw [hcons]; rfl
    · rw [decide_eq_true_eq]
      simp only [List.length_append, List.length_cons, resNSDelim, List.length_nil]
      omega
    · rw [List.all_eq_true]
      intro c hc
      rcases List.mem_append.1 hc with h | h
      · rcases List.mem_append.1 h with h1 | h1
        · rcases List.mem_append.1 h1 with h2 | h2
          · rw [mem_resNSDelim h2]; decide
          · exact isAllowedChar_of_isWordChar ((List.all_eq_true.1 hns2) c h2)
        · rw [mem_resNSDelim h1]; decide
      · rcases List.mem_cons.1 h with rfl | h1
        · decide
        · exact hball c h1
    · rw [hcons]; rfl
    · rw [List.append_cons, Bool.not_eq_true', beq_eq_false_iff_ne,
        List.getLast?_append_of_ne_nil _ hbne]
      exact hblast
  -- the word-character run is exactly the wrapped namespace
  have htw : ((resNSDelim ++ ns ++ resNSDelim) ++ ':' :: body).takeWhile isWordChar =
      resNSDelim ++ ns ++ resNSDelim := by
    rw [takeWhile_append_of_all _ _ ?_]
    · rw [List.takeWhile_cons, if_neg (by decide)]
      simp
    · rw [List.all_eq_true]
      intro c hc
      rcases List.mem_append.1 hc with h | h
      · rcases List.mem_append.1 h with h1 | h1
        · rw [mem_resNSDelim h1]; decide
        · exact (List.all_eq_true.1 hns2) c h1
      · rw [mem_resNSDelim h]; decide
  -- dropping past the namespace name leaves the closing wrapper
  have hdrop2 : ((resNSDelim ++ ns ++ resNSDelim) ++ ':' :: body).drop (ns.length + 2) =
      resNSDelim ++ ':' :: body := by
    rw [show (resNSDelim ++ ns ++ resNSDelim) ++ ':' :: body =
        (resNSDelim ++ ns) ++ (resNSDelim ++ ':' :: body) from by
      simp [List.append_assoc]]
    exact List.drop_left' (by
      simp only [List.length_append, resNSDelim, List.length_cons, List.length_nil]
      omega)
  -- the backtracking search succeeds at once with the namespace length
  have hscrut : (if ((resNSDelim ++ ns ++ resNSDelim) ++ ':' :: body).take 2 = resNSDelim
      then nsLenAux ((resNSDelim ++ ns ++ resNSDelim) ++ ':' :: body)
        ((((resNSDelim ++ ns ++ resNSDelim) ++ ':' :: body).takeWhile isWordChar).length - 4)
      else none) = some ns.length := by
    rw [htw, hnsWlen]
    rw [if_pos (by rw [hcons]; rfl)]
    rw [show ns.length + 4 - 4 = ns.length from by omega]
    obtain ⟨j, hj⟩ : ∃ j, ns.length = j + 1 := by
      cases hns : ns with
      | nil => exact absurd hns hns1
      | cons a t => exact ⟨t.length, by simp⟩
    rw [hj]
    rw [show nsLenAux ((resNSDelim ++ ns ++ resNSDelim) ++ ':' :: body) (j + 1) =
        (if (((resNSDelim ++ ns ++ resNSDelim) ++ ':' :: body).drop (j + 3)).take 2 =
            resNSDelim
          then some (j + 1)
          else nsLenAux ((resNSDelim ++ ns ++ resNSDelim) ++ ':' :: body) j) from rfl]
    rw [show j + 3 = ns.length + 2 from by omega, hdrop2]
    have hc : List.take 2 (resNSDelim ++ ':' :: body) = resNSDelim := rfl
    rw [if_pos hc]
  -- the extracted namespace name
  have hname : parseNSName ((resNSDelim ++ ns ++ resNSDelim) ++ ':' :: body)
      ns.length = ns := by
    unfold parseNSName
    rw [List.take_left' (by rw [hnsWlen])]
    unfold trimPrefixStr
    rw [if_pos (by
      rw [List.append_assoc]
      exact List.isPrefixOf_iff_prefix.mpr (List.prefix_append _ _))]
    rw [show (resNSDelim ++ ns ++ resNSDelim).drop resNSDelim.length =
        ns ++ resNSDelim from by
      rw [List.append_assoc]
      exact List.drop_left _ _]
    unfold trimSuffixStr
    rw [if_pos (List.isSuffixOf_iff_suffix.mpr (List.suffix_append _ _))]
    rw [show (ns ++ resNSDelim).length - resNSDelim.length = ns.length from by
      simp [resNSDelim]]
    exact List.take_left' rfl
  -- the remaining body
  have hrest : parseRest ((resNSDelim ++ ns ++ resNSDelim) ++ ':' :: body)
      ns.length = body := by
    unfold parseRest
    rw [List.drop_left' (by rw [hnsWlen])]
    have hc : List.head? (':' :: body) = some ':' := rfl
    rw [if_pos hc]
    rfl
  unfold kfParseRedisKey
  rw [if_pos hvalid]
  simp only [hscrut, hname, hrest]
  rw [hA]

/-- Witness for C6: the round-trip at a concrete namespace and body. -/
theorem c6_namespace_roundtrip_witness :
    ("app1".toList ≠ [] ∧ "app1".toList.all isWordChar = true ∧
      "app1".toList.map Char.toLower = "app1".toList ∧
      resNSDelim.isPrefixOf "app1".toList = false ∧
      rkValidate "tenant:t1:product:p1".toList = true ∧
      "app1".toList.length + "tenant:t1:product:p1".toList.length + 5 ≤ 1024) ∧
    kfParseRedisKey (kfNewKey "tenant:t1:product:p1".toList "app1".toList).redisKey =
      some (kfNewKey "tenant:t1:product:p1".toList "app1".toList) :=
  ⟨by decide,
   c6_namespace_roundtrip "app1".toList "tenant:t1:product:p1".toList
     (by decide) (by decide) (by decide) (by decide) (by decide) (by decide)⟩

/-- C6 counterexample: the namespace `a-b` passes namespace validation
(ValidateKeyFragment), yet rendering a key under it and parsing the
result does not recover the pair: the parser's regexp does not accept
the hyphen inside the wrappers, so the namespace is not detected and
the whole rendered string comes back as the key body with an empty
namespace. -/
theorem c6_counterexample :
    kfValidateKeyFragmentOk "a-b".toList = true ∧
    kfNewKey "x".toList "a-b".toList = ⟨"x".toList, "__a-b__".toList⟩ ∧
    kfParseRedisKey (kfNewKey "x".toList "a-b".toList).redisKey =
      some ⟨"__a-b__:x".toList, []⟩ ∧
    (⟨"__a-b__:x".toList, []⟩ : KFKey) ≠ ⟨"x".toList, "__a-b__".toList⟩ := by
  decide

/-! ## Claim C5 -/

/-- Event discipline of one operation run: no datastore call ever
follows an event emission, and the emissions are exactly one event with
the stated name and keys when the run succeeded and issued a write, and
none otherwise (error, panic, or a run without a write). -/
def eventOk {α : Type} (res : Outcome α) (tr : List Act) (name : Str)
    (keys : List Str) : Prop :=
  noCallAfterEmit tr = true ∧
  emitsOf tr = (match res with
    | .ok _ => if tr.any isWriteCall then [(name, keys)] else []
    | _ => [])

/-- Add's event discipline. -/
theorem esAdd_eventOk (es : ES) (o : Oracle) (e : Ent) (exp : Int) :
    eventOk (esAdd es o e exp).1 (esAdd es o e exp).2 addedEv [e.key] := by
  unfold eventOk
  cases hb : esBuildKey es e.key with
  | none => simp [esAdd, hb, noCallAfterEmit, emitsOf]
  | some key =>
    cases hd : e.data with
    | none => simp [esAdd, hb, hd, noCallAfterEmit, emitsOf]
    | some d =>
      cases hs : o.setOk key.redisKey d with
      | true => simp [esAdd, hb, hd, dsPut, hs, noCallAfterEmit, emitsOf, isWriteCall]
      | false => simp [esAdd, hb, hd, dsPut, hs, noCallAfterEmit, emitsOf, isWriteCall]

/-- A successful batch preparation of a non-empty batch is non-empty. -/
theorem esPrepBatch_cons_ne_nil {es : ES} {e : Ent} {rest : List Ent}
    {items : List (KFKey × Bytes)} (h : esPrepBatch es (e :: rest) = .ok items) :
    items ≠ [] := by
  unfold esPrepBatch at h
  cases hb : esBuildKey es e.key <;> rw [hb] at h
  · cases h
  · cases hd : e.data <;> rw [hd] at h
    · cases h
    · cases hr : esPrepBatch es rest <;> rw [hr] at h
      · simp only [Outcome.ok.injEq] at h
        rw [← h]
        simp
      · cases h
      · cases h

/-- AddBatch's event discipline. -/
theorem esAddBatch_eventOk (es : ES) (o : Oracle) (ents : List Ent) (exp : Int) :
    eventOk (esAddBatch es o ents exp).1 (esAddBatch es o ents exp).2 addedEv
      (ents.map (·.key)) := by
  unfold eventOk
  cases hne : ents.isEmpty with
  | true => simp [esAddBatch, hne, noCallAfterEmit, emitsOf]
  | false =>
    cases hp : esPrepBatch es ents with
    | err er => simp [esAddBatch, hne, hp, noCallAfterEmit, emitsOf]
    | panicked => simp [esAddBatch, hne, hp, noCallAfterEmit, emitsOf]
    | ok items =>
      have hitems : items ≠ [] := by
        cases ents with
        | nil => simp at hne
        | cons e rest => exact esPrepBatch_cons_ne_nil hp
      cases hm : o.msetOk (dsPairs (items.map (·.1)) (items.map (·.2))) with
      | true =>
        simp [esAddBatch, hne, hp, dsPutMulti, hm, hitems, List.isEmpty_iff,
          noCallAfterEmit, emitsOf, isWriteCall]
      | false =>
        simp [esAddBatch, hne, hp, dsPutMulti, hm, hitems, List.isEmpty_iff,
          noCallAfterEmit, emitsOf, isWriteCall]

/-- Remove's event discipline. -/
theorem esRemove_eventOk (es : ES) (o : Oracle) (k : Str) :
    eventOk (esRemove es o k).1 (esRemove es o k).2 removedEv [k] := by
  unfold eventOk
  cases hke : k.isEmpty with
  | true => simp [esRemove, hke, noCallAfterEmit, emitsOf]
  | false =>
    cases hb : esBuildKey es k with
    | none => simp [esRemove, hke, hb, noCallAfterEmit, emitsOf]
    | some key =>
      cases hd : o.delOk ([key].map KFKey.redisKey) with
      | true =>
        simp only [List.map_cons, List.map_nil] at hd
        simp [esRemove, hke, hb, dsDelete, hd, noCallAfterEmit, emitsOf, isWriteCall]
      | false =>
        simp only [List.map_cons, List.map_nil] at hd
        simp [esRemove, hke, hb, dsDelete, hd, noCallAfterEmit, emitsOf, isWriteCall]

/-- A successful key preparation of a non-empty key list is non-empty. -/
theorem esPrepKeys_cons_ne_nil {es : ES} {k : Str} {rest : List Str}
    {keys : List KFKey} (h : esPrepKeys es (k :: rest) = .ok keys) :
    keys ≠ [] := by
  unfold esPrepKeys at h
  cases hb : esBuildKey es k <;> rw [hb] at h
  · cases h
  · cases hr : esPrepKeys es rest <;> rw [hr] at h
    · simp only [Outcome.ok.injEq] at h
      rw [← h]
      simp
    · cases h
    · cases h

/-- RemoveByKeys' event discipline. -/
theorem esRemoveByKeys_eventOk (es : ES) (o : Oracle) (ks : List Str) :
    eventOk (esRemoveByKeys es o ks).1 (esRemoveByKeys es o ks).2 removedEv ks := by
  unfold eventOk
  cases hne : ks.isEmpty with
  | true => simp [esRemoveByKeys, hne, noCallAfterEmit, emitsOf]
  | false =>
    cases hp : esPrepKeys es ks with
    | err er => simp [esRemoveByKeys, hne, hp, noCallAfterEmit, emitsOf]
    | panicked => simp [esRemoveByKeys, hne, hp, noCallAfterEmit, emitsOf]
    | ok keys =>
      have hkeys : keys ≠ [] := by
        cases ks with
        | nil => simp at hne
        | cons k rest => exact esPrepKeys_cons_ne_nil hp
      cases hd : o.delOk (keys.map KFKey.redisKey) with
      | true =>
        simp [esRemoveByKeys, hne, hp, dsDelete, hd, hkeys, List.isEmpty_iff,
          noCallAfterEmit, emitsOf, isWriteCall]
      | false =>
        simp [esRemoveByKeys, hne, hp, dsDelete, hd, hkeys, List.isEmpty_iff,
          noCallAfterEmit, emitsOf, isWriteCall]

/-- RemoveAll's event discipline, with the emitted key list tied to the
enumeration. -/
theorem esRemoveAll_eventOk (es : ES) (o : Oracle) (pk : Str) :
    (∃ kl, eventOk (esRemoveAll es o pk).1 (esRemoveAll es o pk).2 removedEv kl) ∧
    ((esRemoveAll es o pk).1 = .ok () →
      (esRemoveAll es o pk).2.any isWriteCall = true →
      ∃ pat keys, keys ≠ [] ∧
        (esRemoveAll es o pk).2 = [.call (.keysC pat),
          .call (.delC (keys.map KFKey.redisKey)),
          .emit removedEv (keys.map KFKey.key)]) := by
  unfold eventOk
  cases hb : esBuildMatch es pk with
  | none =>
    refine ⟨⟨[], ?_⟩, ?_⟩ <;> simp [esRemoveAll, hb, noCallAfterEmit, emitsOf]
  | some km =>
    cases hkr : o.keysRes km.redisKey with
    | none =>
      refine ⟨⟨[], ?_⟩, ?_⟩ <;>
        simp [esRemoveAll, dsGetKeys, hb, hkr, noCallAfterEmit, emitsOf]
    | some rsKeys =>
      cases hpa : parseAllKeys rsKeys with
      | none =>
        refine ⟨⟨[], ?_⟩, ?_⟩ <;>
          simp [esRemoveAll, dsGetKeys, hb, hkr, hpa, noCallAfterEmit, emitsOf]
      | some keys =>
        cases hke : keys.isEmpty with
        | true =>
          refine ⟨⟨[], ?_⟩, ?_⟩ <;>
            simp [esRemoveAll, dsGetKeys, hb, hkr, hpa, hke, noCallAfterEmit,
              emitsOf, isWriteCall]
        | false =>
          have hkne : keys ≠ [] := by simpa [List.isEmpty_eq_false] using hke
          cases hd : o.delOk (keys.map KFKey.redisKey) with
          | true =>
            refine ⟨⟨keys.map KFKey.key, ?_⟩,
              fun _ _ => ⟨km.redisKey, keys, hkne, ?_⟩⟩ <;>
              simp [esRemoveAll, dsGetKeys, dsDelete, hb, hkr, hpa, hke, hd,
                noCallAfterEmit, emitsOf, isWriteCall]
          | false =>
            refine ⟨⟨[], ?_⟩, ?_⟩ <;>
              simp [esRemoveAll, dsGetKeys, dsDelete, hb, hkr, hpa, hke, hd,
                noCallAfterEmit, emitsOf, isWriteCall]

/-- C5: for each mutating operation (Add, AddBatch, Remove,
RemoveByKeys, RemoveAll), on every error path no event is emitted; on
success with a write issued, exactly one lifecycle event is emitted,
after every datastore call of the operation, carrying exactly the keys
written or removed (the entity keys for Add/AddBatch, the input keys for
Remove/RemoveByKeys including keys that did not exist, and the
enumerated keys' logical strings for RemoveAll, matching its delete
call); a successful run that issued no write (the empty-input no-ops and
a RemoveAll that found nothing) emits nothing. -/
theorem c5_event_discipline (es : ES) (o : Oracle) (exp : Int) (e : Ent)
    (ents : List Ent) (k : Str) (ks : List Str) (pk : Str) :
    eventOk (esAdd es o e exp).1 (esAdd es o e exp).2 addedEv [e.key] ∧
    eventOk (esAddBatch es o ents exp).1 (esAddBatch es o ents exp).2 addedEv
      (ents.map (·.key)) ∧
    eventOk (esRemove es o k).1 (esRemove es o k).2 removedEv [k] ∧
    eventOk (esRemoveByKeys es o ks).1 (esRemoveByKeys es o ks).2 removedEv ks ∧
    (∃ kl, eventOk (esRemoveAll es o pk).1 (esRemoveAll es o pk).2 removedEv kl) ∧
    ((esRemoveAll es o pk).1 = .ok () →
      (esRemoveAll es o pk).2.any isWriteCall = true →
      ∃ pat keys, keys ≠ [] ∧
        (esRemoveAll es o pk).2 = [.call (.keysC pat),
          .call (.delC (keys.map KFKey.redisKey)),
          .emit removedEv (keys.map KFKey.key)]) :=
  ⟨esAdd_eventOk es o e exp, esAddBatch_eventOk es o ents exp,
   esRemove_eventOk es o k, esRemoveByKeys_eventOk es o ks,
   (esRemoveAll_eventOk es o pk).1, (esRemoveAll_eventOk es o pk).2⟩

/-- Witness for C5: the discipline at a concrete store and oracle; the
RemoveAll conjunct's hypotheses are discharged on a store holding one
matching key, whose deletion emits exactly that key. -/
theorem c5_event_discipline_witness :
    ((esRemoveAll esNS (storeOracle ["__ns__:product:p1".toList]) []).1 = .ok () ∧
      ((esRemoveAll esNS (storeOracle ["__ns__:product:p1".toList]) []).2.any
        isWriteCall = true)) ∧
    (∃ pat keys, keys ≠ [] ∧
      (esRemoveAll esNS (storeOracle ["__ns__:product:p1".toList]) []).2 =
        [.call (.keysC pat), .call (.delC (keys.map KFKey.redisKey)),
         .emit removedEv (keys.map KFKey.key)]) :=
  ⟨⟨by decide, by decide⟩,
   (c5_event_discipline esNS (storeOracle ["__ns__:product:p1".toList]) 0
     ⟨[], none⟩ [] [] [] []).2.2.2.2.2 (by decide) (by decide)⟩
